import Mathlib

/-!
Shallow embedding of the aldar directory-tree visualizer
(src/aldar.rs, src/fsutil.rs, src/main.rs): the size formatter, the
glyph / indentation engine, the entry filter and sort pipeline, and the
recursive tree walker, together with theorems settling the frozen claims
about them.

Modelling conventions:
- u64 byte counts are Nat; the conversion `sz as f64` and the decimal
  renderings of Rust format strings are modelled exactly over rationals
  num / den with den a power of two (such rationals are exactly
  representable in f64 in the magnitudes that occur, so the model is
  exact), with round-half-to-even where Rust rounds.
- The compiled RegexSet matchers are modelled extensionally as
  predicates String -> Bool (true iff some pattern of the set matches);
  pattern compilation is configuration-time and outside the claims.
- Terminal colorization (the colored crate) is modelled as abstract
  string decorations, following the spec, which treats it as a pure
  string-decoration function.
- The filesystem is modelled as a finite tree; fallible filesystem
  calls are Except values, and a Rust panic is a distinguished abort
  outcome that propagates.
-/

namespace Aldar

/-- Bytes per unit, from the constants in aldar.rs lines 20-25. Note the
source defines EB_SIZE as 1 << 50 and PB_SIZE as 1 << 60. -/
def KB_SIZE : Nat := 2 ^ 10

/-- Constant MB_SIZE, 1 << 20. -/
def MB_SIZE : Nat := 2 ^ 20

/-- Constant GB_SIZE, 1 << 30. -/
def GB_SIZE : Nat := 2 ^ 30

/-- Constant TB_SIZE, 1 << 40. -/
def TB_SIZE : Nat := 2 ^ 40

/-- Constant EB_SIZE, 1 << 50 (sic: the source gives EB the smaller
threshold). -/
def EB_SIZE : Nat := 2 ^ 50

/-- Constant PB_SIZE, 1 << 60 (sic). -/
def PB_SIZE : Nat := 2 ^ 60

/-- Round num / den to the nearest integer with ties to even: the
rounding used both by Rust float formatting and by u64-to-f64
conversion. A zero denominator yields 0 (unused). -/
def roundHalfEven (num den : Nat) : Nat :=
  if den = 0 then 0
  else
    let q := num / den
    let r := num % den
    if 2 * r < den then q
    else if den < 2 * r then q + 1
    else if q % 2 = 0 then q else q + 1

/-- Fuelled floor base-2 logarithm (structurally recursive so that the
kernel can evaluate it on literals). -/
def log2fuel : Nat → Nat → Nat
  | 0, _ => 0
  | fuel + 1, n => if n ≤ 1 then 0 else log2fuel fuel (n / 2) + 1

/-- Floor base-2 logarithm: position of the top set bit. -/
def natLog2 (n : Nat) : Nat :=
  log2fuel n n

/-- Value of `sz as f64` for a u64 sz, as a Nat: values up to 2^53 are
exact; larger values round to 53 significant bits, ties to even. -/
def toF64 (sz : Nat) : Nat :=
  if sz ≤ 2 ^ 53 then sz
  else
    let ulp := 2 ^ (natLog2 sz - 52)
    roundHalfEven sz ulp * ulp

/-- Right-align s in a field of w characters with spaces, as the Rust
format spec {: >w} does (no-op when s is already at least w long). -/
def padLeft (w : Nat) (s : String) : String :=
  String.mk (List.replicate (w - s.length) ' ') ++ s

/-- Decimal rendering of n zero-padded to two digits (fractional part
of {:.2}). -/
def pad2 (n : Nat) : String :=
  String.mk (List.replicate (2 - (toString n).length) '0') ++ toString n

/-- Decimal rendering of n zero-padded to four digits (mantissa
fraction of {:.4E}). -/
def pad4 (n : Nat) : String :=
  String.mk (List.replicate (4 - (toString n).length) '0') ++ toString n

/-- Rendering of num / den with exactly two decimal places, modelling
Rust {:.2} applied to an exactly-representable f64. -/
def fmtFixed2 (num den : Nat) : String :=
  let m := roundHalfEven (num * 100) den
  toString (m / 100) ++ "." ++ pad2 (m % 100)

/-- Number of decimal left-shifts needed to bring num / den to at least
one, for 0 < num < den. -/
def decShift (num den : Nat) : Nat :=
  let l := Nat.log 10 (den / num)
  if den ≤ num * 10 ^ l then l else l + 1

/-- Model of Rust {:.4E} on num / den: scientific notation with a
four-decimal mantissa, round half to even, exponent without a plus
sign, with the carry into the next exponent when the mantissa rounds up
to 10. -/
def fmtExp4 (num den : Nat) : String :=
  if num = 0 ∨ den = 0 then "0.0000E0"
  else
    let e : Int :=
      if den ≤ num then (Nat.log 10 (num / den) : Int)
      else -(decShift num den : Int)
    let m :=
      match e with
      | .ofNat k => roundHalfEven (num * 10 ^ 4) (den * 10 ^ k)
      | .negSucc k => roundHalfEven (num * 10 ^ 4 * 10 ^ (k + 1)) den
    let p := if m = 10 ^ 5 then ((10 ^ 4 : Nat), e + 1) else (m, e)
    toString (p.1 / 10 ^ 4) ++ "." ++ pad4 (p.1 % 10 ^ 4) ++ "E" ++ toString p.2

/-- Closure create_str inside Aldar::size_as_str (aldar.rs lines
394-413): renders the already-scaled value num / den with 0 decimal
places when it is whole and 2 otherwise, appends the unit, wraps in
" [..]" right-aligned to width 8 (human-readable) or 11, and falls back
to {:.4E} exponential notation when the plain rendering is too long. -/
def create_str (human : Bool) (num den : Nat) (unit : String) : String :=
  let str_sz :=
    (if num % den = 0 then toString (num / den) else fmtFixed2 num den) ++ unit
  if human then
    if str_sz.length < 9 then " [" ++ padLeft 8 str_sz ++ "]"
    else " [" ++ padLeft 8 (fmtExp4 num den) ++ unit ++ "]"
  else
    if str_sz.length < 12 then " [" ++ padLeft 11 str_sz ++ "]"
    else " [" ++ padLeft 11 (fmtExp4 num den) ++ unit ++ "]"

/-- Model of Aldar::size_as_str (aldar.rs lines 393-444). The unit
ladder is exactly the source's chain of strict greater-than tests on
the raw u64; note the source's GB branch divides by GB_SIZE yet appends
the suffix "TB". -/
def size_as_str (human : Bool) (sz : Nat) : String :=
  let f := toF64 sz
  if !human then create_str human f 1 ""
  else if PB_SIZE < sz then create_str human f PB_SIZE "PB"
  else if EB_SIZE < sz then create_str human f EB_SIZE "EB"
  else if TB_SIZE < sz then create_str human f TB_SIZE "TB"
  else if GB_SIZE < sz then create_str human f GB_SIZE "TB"
  else if MB_SIZE < sz then create_str human f MB_SIZE "MB"
  else if KB_SIZE < sz then create_str human f KB_SIZE "KB"
  else create_str human f 1 ""

/-- Glyph triple: the tuple struct GlyphSet in aldar.rs line 29 (field
0 is the pipe, field 1 the last-sibling branch, field 2 the branch for
a non-last sibling), exposed through the Glyphs trait accessors. -/
structure GlyphSet where
  pipe : String
  last : String
  item : String

/-- Constant UNICODE_GLYPHSET from aldar.rs line 46. -/
def UNICODE_GLYPHSET : GlyphSet :=
  { pipe := "│", last := "└──", item := "├──" }

/-- Constant ASCII_GLYPHSET from aldar.rs line 49. -/
def ASCII_GLYPHSET : GlyphSet :=
  { pipe := "|", last := "`--", item := "|--" }

/-- Configuration and cached fields of the Aldar struct (aldar.rs lines
57-88). The output writer is represented by the out field of the
traversal state; base models self.path.canonicalize() followed by
to_str (none when either step fails). -/
structure Config where
  show_hidden_files : Bool
  dir_only : Bool
  ignore_case : Bool
  level : Int
  print_fullpath : Bool
  print_size : Bool
  human_readable : Bool
  replace_nonprintables : Bool
  include_matcher : Option (String → Bool)
  exclude_matcher : Option (String → Bool)
  glyphs : GlyphSet
  sz_item : Nat
  sz_last : Nat
  base : Option String
  colorDirHidden : String → String
  colorDir : String → String
  colorExec : String → String
  colorHidden : String → String

/-- Defaults of Aldar::new (aldar.rs lines 92-119); the colorizers are
left abstract as the identity decoration. -/
def defaultConfig : Config where
  show_hidden_files := false
  dir_only := false
  ignore_case := false
  level := -1
  print_fullpath := false
  print_size := false
  human_readable := false
  replace_nonprintables := false
  include_matcher := none
  exclude_matcher := none
  glyphs := UNICODE_GLYPHSET
  sz_item := UNICODE_GLYPHSET.item.length
  sz_last := UNICODE_GLYPHSET.last.length + 1
  base := none
  colorDirHidden := fun s => s
  colorDir := fun s => s
  colorExec := fun s => s
  colorHidden := fun s => s

/-- Model of Aldar::use_glyphset (aldar.rs lines 153-158): installs the
given glyph set, but recomputes the cached widths sz_item and sz_last
from UNICODE_GLYPHSET (chars().count() is the character count, i.e.
String.length here). -/
def use_glyphset (cfg : Config) (g : GlyphSet) : Config :=
  { cfg with
      glyphs := g,
      sz_item := UNICODE_GLYPHSET.item.length,
      sz_last := UNICODE_GLYPHSET.last.length + 1 }

/-- Boolean test that pre is a character-wise leading segment of s:
the evaluable model of str prefix tests (byte prefixes of valid UTF-8
agree with character prefixes). -/
def chIsPre : List Char → List Char → Bool
  | [], _ => true
  | _ :: _, [] => false
  | a :: as, b :: bs => a == b && chIsPre as bs

/-- Model of a filesystem subtree, the abstract provider behind
fs::read_dir and the DirEntry metadata calls. Names here are valid
UTF-8 strings; the Option-valued nameStr on Entry below additionally
covers names that are not valid UTF-8. A file node carries its
executable bit; readable on a directory models whether read_dir on it
succeeds (read_dir on a file always fails). -/
inductive FTree where
  | file (name : String) (size : Nat) (exec : Bool)
  | dir (name : String) (size : Nat) (readable : Bool) (children : List FTree)

/-- File name of a node. -/
def FTree.name : FTree → String
  | .file n _ _ => n
  | .dir n _ _ _ => n

/-- Directory test of a node (DirEntry::file_type().is_dir()). -/
def FTree.isDir : FTree → Bool
  | .file _ _ _ => false
  | .dir _ _ _ _ => true

/-- Metadata size of a node in bytes. -/
def FTree.size : FTree → Nat
  | .file _ s _ => s
  | .dir _ s _ _ => s

/-- Executable bit of a node; fsutil.rs is_executable returns false for
directories. -/
def FTree.exec : FTree → Bool
  | .file _ _ e => e
  | .dir _ _ _ _ => false

/-- Whether fs::read_dir succeeds on this node's path. -/
def FTree.readable : FTree → Bool
  | .file _ _ _ => false
  | .dir _ _ r _ => r

/-- Children listed by fs::read_dir when it succeeds. -/
def FTree.children : FTree → List FTree
  | .file _ _ _ => []
  | .dir _ _ _ cs => cs

/-- One raw directory entry as the traversal sees it: nameStr models
entry.file_name().to_str() (none for a name that is not valid UTF-8),
path the entry's full path, canon the result of
entry.path().canonicalize() followed by to_str (outer none: the
canonicalize call failed; inner none: the canonical path is not valid
UTF-8), and sub the subtree behind the entry (the model's handle for
descending into it). -/
structure Entry where
  nameStr : Option String
  path : String
  isDir : Bool
  size : Nat
  exec : Bool
  canon : Option (Option String)
  sub : FTree

/-- Model of fsutil.rs is_hidden (unix): the name starts with a dot,
and false when the name is not valid UTF-8. -/
def is_hidden (e : Entry) : Bool :=
  match e.nameStr with
  | some n => chIsPre ['.'] n.data
  | none => false

/-- Entry produced for a child node of the directory at path wd:
entry.path() is the parent path joined with the file name. Paths in
the tree model are taken as already canonical, so canon succeeds with
the path itself. -/
def entryOf (wd : String) (t : FTree) : Entry :=
  { nameStr := some t.name
    path := wd ++ "/" ++ t.name
    isDir := t.isDir
    size := t.size
    exec := t.exec
    canon := some (some (wd ++ "/" ++ t.name))
    sub := t }

/-- Exclude-matcher half of the filter closure in
Aldar::fetch_directory (aldar.rs lines 297-301); the error value
models the panic of Option::unwrap on a file name that is not valid
UTF-8. -/
def filterExclude (cfg : Config) (entry : Entry) : Except Unit (Option Entry) :=
  match cfg.exclude_matcher with
  | some matcher =>
    match entry.nameStr with
    | none => .error ()
    | some s => if matcher s then .ok none else .ok (some entry)
  | none => .ok (some entry)

/-- The filter_map closure of Aldar::fetch_directory (aldar.rs lines
280-311), minus the statistics update (kept in runFilter below, which
applies exactly when the closure keeps the entry): drop failed
read_dir items; drop hidden entries unless shown; for non-directories
only, drop files not matching a configured include set or matching a
configured exclude set, where each matcher consults
entry.file_name().to_str().unwrap() — the unwrap panics (error) when
the name is not valid UTF-8. -/
def filterEntry (cfg : Config) (r : Except Unit Entry) : Except Unit (Option Entry) :=
  match r with
  | .error _ => .ok none
  | .ok entry =>
    if !cfg.show_hidden_files && is_hidden entry then .ok none
    else if entry.isDir then .ok (some entry)
    else
      match cfg.include_matcher with
      | some matcher =>
        match entry.nameStr with
        | none => .error ()
        | some s =>
          if !matcher s then .ok none
          else filterExclude cfg entry
      | none => filterExclude cfg entry

/-- Traversal state owned by the walker: the two statistics counters,
the indent stack of per-ancestor fragments, and the ordered lines
written to the output sink so far. -/
structure St where
  proc_dirs : Nat
  proc_files : Nat
  indent : List String
  out : List String

/-- The filter pass of fetch_directory over the listed children, in
listing order, threading the statistics counters: a kept directory
increments proc_dirs, a kept file increments proc_files (aldar.rs
lines 304-308); a panic in the closure aborts the pass. -/
def runFilter (cfg : Config) : List Entry → St → Except Unit (List Entry × St)
  | [], st => .ok ([], st)
  | e :: rest, st =>
    match filterEntry cfg (.ok e) with
    | .error u => .error u
    | .ok none => runFilter cfg rest st
    | .ok (some e') =>
      let st' :=
        if e'.isDir then { st with proc_dirs := st.proc_dirs + 1 }
        else { st with proc_files := st.proc_files + 1 }
      match runFilter cfg rest st' with
      | .error u => .error u
      | .ok (es, st'') => .ok (e' :: es, st'')

/-- Comparison of two characters by code point, the order Rust uses on
path bytes (UTF-8 byte order agrees with code-point order). -/
def charCmp (a b : Char) : Ordering :=
  if a.toNat < b.toNat then .lt else if b.toNat < a.toNat then .gt else .eq

/-- Lexicographic comparison of character lists: the model of
Path::cmp on the full paths of two siblings. -/
def lexCmp : List Char → List Char → Ordering
  | [], [] => .eq
  | [], _ :: _ => .lt
  | _ :: _, [] => .gt
  | a :: as, b :: bs =>
    match charCmp a b with
    | .eq => lexCmp as bs
    | o => o

/-- The sort_by comparator of Aldar::fetch_directory (aldar.rs lines
314-324): a directory before a file, a file after a directory, and
otherwise the paths compared lexicographically. -/
def cmpEntries (a b : Entry) : Ordering :=
  if a.isDir && !b.isDir then .lt
  else if b.isDir && !a.isDir then .gt
  else lexCmp a.path.data b.path.data

/-- Stable insertion of e after every already-placed entry not greater
than it. -/
def insertSorted (e : Entry) : List Entry → List Entry
  | [] => [e]
  | x :: xs => if cmpEntries x e = .gt then e :: x :: xs else x :: insertSorted e xs

/-- Model of Vec::sort_by with the comparator above: Rust's sort_by is
a stable sort, rendered here as a stable insertion sort (a stable sort
is determined by the comparator). -/
def sort_by (l : List Entry) : List Entry :=
  l.foldl (fun acc e => insertSorted e acc) []

/-- Failure modes of fetch_directory: io is a read_dir error (returned
as Err and swallowed by the caller's .ok()), abort is a panic escaping
the filter closure. -/
inductive FetchErr where
  | io
  | abort

/-- The read-filter-sort part of fetch_directory, after the
directory-level exclude check: fs::read_dir (fails on an unreadable
node), the filter pass, then the stable sort. -/
def fetch_read (cfg : Config) (workingDir : String) (t : FTree) (st : St) :
    Except FetchErr (List Entry × St) :=
  if t.readable then
    match runFilter cfg (t.children.map (entryOf workingDir)) st with
    | .error _ => .error .abort
    | .ok (es, st') => .ok (sort_by es, st')
  else .error .io

/-- Model of Aldar::fetch_directory (aldar.rs lines 272-327): when an
exclude matcher is configured and matches the directory's own path,
the whole listing is skipped with an empty child list; otherwise the
directory is read, filtered and sorted. -/
def fetch_directory (cfg : Config) (workingDir : String) (t : FTree) (st : St) :
    Except FetchErr (List Entry × St) :=
  match cfg.exclude_matcher with
  | some matcher =>
    if matcher workingDir then .ok ([], st)
    else fetch_read cfg workingDir t st
  | none => fetch_read cfg workingDir t st

/-- A run of n spaces: String::from_utf8(vec![b' '; n]). -/
def spaces (n : Nat) : String :=
  String.mk (List.replicate n ' ')

/-- Model of Aldar::do_indent (aldar.rs lines 374-387): push one
frame — blank padding of width sz_last for a last sibling, otherwise
the pipe glyph followed by sz_item spaces. -/
def do_indent (cfg : Config) (is_last : Bool) (st : St) : St :=
  if is_last then { st with indent := st.indent ++ [spaces cfg.sz_last] }
  else { st with indent := st.indent ++ [cfg.glyphs.pipe ++ spaces cfg.sz_item] }

/-- Model of Aldar::do_unindent (aldar.rs lines 389-391): pop the top
frame. -/
def do_unindent (st : St) : St :=
  { st with indent := st.indent.dropLast }

/-- Platform path separator std::path::MAIN_SEPARATOR for the unix
configuration of fsutil.rs. -/
def MAIN_SEPARATOR : Char := '/'

/-- Model of str::strip_prefix with a string pattern: Some of the rest
when pre leads s. -/
def strip_pre_str (s pre : String) : Option String :=
  if chIsPre pre.data s.data then some (String.mk (s.data.drop pre.data.length))
  else none

/-- Model of str::strip_prefix with a character pattern. -/
def strip_pre_char (s : String) (c : Char) : Option String :=
  match s.data with
  | [] => none
  | x :: xs => if x = c then some (String.mk xs) else none

/-- Model of get_full_rel_path (fsutil.rs lines 62-83): canonicalize
the entry's path (on failure fall back to the bare file name, or "?"
when that is not valid UTF-8); convert to str and strip the base
prefix, returning "?" directly when either step fails; finally strip
one leading path separator if present. -/
def get_full_rel_path (e : Entry) (base : String) : String :=
  match e.canon with
  | none =>
    match e.nameStr with
    | some s => s
    | none => "?"
  | some fp =>
    match fp with
    | none => "?"
    | some p =>
      match strip_pre_str p base with
      | none => "?"
      | some rel =>
        match strip_pre_char rel MAIN_SEPARATOR with
        | some s => s
        | none => rel

/-- Model of Aldar::print_entry (aldar.rs lines 329-372): build the
line prefix from the cloned indent stack plus the terminal branch
glyph, append the size segment when enabled, bail out (writing
nothing) when the file name is not valid UTF-8, rewrite the name as a
base-relative path in full-path mode when the working directory
canonicalizes, colorize by classification, and append the line to the
output. -/
def print_entry (cfg : Config) (e : Entry) (last : Bool) (st : St) : St :=
  let ind0 := st.indent ++ [if last then cfg.glyphs.last else cfg.glyphs.item]
  let ind :=
    if cfg.print_size then ind0 ++ [size_as_str cfg.human_readable e.size]
    else ind0
  match e.nameStr with
  | none => st
  | some s =>
    let fn0 :=
      if cfg.print_fullpath then
        match cfg.base with
        | some b => get_full_rel_path e b
        | none => s
      else s
    let fn :=
      if e.isDir && is_hidden e then cfg.colorDirHidden fn0
      else if e.isDir then cfg.colorDir fn0
      else if e.exec then cfg.colorExec fn0
      else if is_hidden e then cfg.colorHidden fn0
      else fn0
    { st with out := st.out ++ [String.join ind ++ " " ++ fn] }

/-- The per-directory loop of Aldar::show_dir (aldar.rs lines
257-267), abstracted over the recursive descent recur: print each
fetched entry with its last-sibling flag, and for a directory entry
push an indent frame, descend (a panic propagates; an error result is
swallowed by .ok(), leaving the state the descent returned), and pop
the frame. -/
def show_entries (cfg : Config) (recur : Entry → St → Option St) (sz : Nat) :
    List Entry → Nat → St → Option St
  | [], _, st => some st
  | e :: rest, i, st =>
    let last := sz == i + 1
    let st1 := print_entry cfg e last st
    if e.isDir then
      match recur e (do_indent cfg last st1) with
      | none => none
      | some st2 => show_entries cfg recur sz rest (i + 1) (do_unindent st2)
    else show_entries cfg recur sz rest (i + 1) st1

/-- Model of Aldar::show_dir (aldar.rs lines 248-270), fuelled for
structural recursion (fuel at least the tree height makes the model
exact; every theorem below holds for every fuel): bail out when a
non-negative level limit is exceeded; fetch the filtered and sorted
children (a read error propagates to the caller, which swallows it
with the state unchanged — modelled as returning the entry state; a
panic aborts); then run the loop, descending with one more level. -/
def show_dir (cfg : Config) : Nat → String → FTree → Int → St → Option St
  | 0, _, _, _, st => some st
  | fuel + 1, wd, t, lvl, st =>
    if cfg.level > -1 ∧ lvl > cfg.level then some st
    else
      match fetch_directory cfg wd t st with
      | .error .abort => none
      | .error .io => some st
      | .ok (dirs, st1) =>
        show_entries cfg (fun e st' => show_dir cfg fuel e.path e.sub (lvl + 1) st')
          dirs.length dirs 0 st1

/-- Spec-side walker for the depth-limit claim: the same traversal
with the level guard removed, following the spec's words that a level
of -1 means unlimited recursion. -/
def show_dirNoLimit (cfg : Config) : Nat → String → FTree → Int → St → Option St
  | 0, _, _, _, st => some st
  | fuel + 1, wd, t, lvl, st =>
    match fetch_directory cfg wd t st with
    | .error .abort => none
    | .error .io => some st
    | .ok (dirs, st1) =>
      show_entries cfg (fun e st' => show_dirNoLimit cfg fuel e.path e.sub (lvl + 1) st')
        dirs.length dirs 0 st1

/-- Cut a tree off at depth k: directories k levels down keep their
metadata but lose their children. Used to state the depth-limit
semantics: the limited walk equals the unlimited walk of the cut
tree. -/
def prune : Nat → FTree → FTree
  | _, .file n sz ex => .file n sz ex
  | 0, .dir n sz r _ => .dir n sz r []
  | k + 1, .dir n sz r cs => .dir n sz r (cs.map (prune k))

/-- Replace the subtree handle of an entry (the only Entry field the
renderer never reads). -/
def mapSub (g : FTree → FTree) (e : Entry) : Entry :=
  { e with sub := g e.sub }

/-- Evaluable suffix test on strings, used to build concrete matcher
predicates (the extensional image of a regex such as "name$"). -/
def endsWithB (suf s : String) : Bool :=
  chIsPre suf.data.reverse s.data.reverse

deriving instance DecidableEq for St

/-- Placeholder subtree for entries built directly (not via entryOf). -/
def dummyTree : FTree := .file "" 0 false

/-- An entry whose OS file name is not valid UTF-8, so
file_name().to_str() is None. -/
def badNameEntry : Entry :=
  { nameStr := none, path := "d/x", isDir := false, size := 7, exec := false
    canon := none, sub := dummyTree }

/-- Concrete entry for the relative-path claims: file a.txt whose path
canonicalizes to /x/a.txt. -/
def relEntry : Entry :=
  { nameStr := some "a.txt", path := "/x/a.txt", isDir := false, size := 0
    exec := false, canon := some (some "/x/a.txt"), sub := dummyTree }

/-- Configuration with an include pattern matching *.txt and an exclude
pattern matching *node_modules. -/
def cfgExcl : Config :=
  { defaultConfig with
      include_matcher := some (endsWithB ".txt")
      exclude_matcher := some (endsWithB "node_modules") }

/-- Directory node_modules containing a file x.txt that the include
pattern of cfgExcl matches. -/
def tNM : FTree :=
  .dir "node_modules" 0 true [.file "x.txt" 5 false]

/-- Tree whose root holds only the directory tNM. -/
def tExcl : FTree :=
  .dir "root" 0 true [tNM]

/-- Empty initial traversal state. -/
def st0 : St := ⟨0, 0, [], []⟩

/-- Two-level tree for the depth-limit witness. -/
def tDepth : FTree :=
  .dir "a" 0 true [.dir "b" 0 true [.file "c.txt" 3 false]]

/-- Hidden file entry (name starts with a dot). -/
def eHidden : Entry :=
  { nameStr := some ".secret", path := "r/.secret", isDir := false, size := 1
    exec := false, canon := none, sub := dummyTree }

/-- Directory entry named src. -/
def eDirE : Entry :=
  { nameStr := some "src", path := "r/src", isDir := true, size := 0
    exec := false, canon := none, sub := dummyTree }

/-- Plain file entry a.txt. -/
def eTxt : Entry :=
  { nameStr := some "a.txt", path := "r/a.txt", isDir := false, size := 2
    exec := false, canon := none, sub := dummyTree }

/-- Plain file entry b.log. -/
def eLog : Entry :=
  { nameStr := some "b.log", path := "r/b.log", isDir := false, size := 2
    exec := false, canon := none, sub := dummyTree }

/-- Configuration with only an include pattern matching *.md. -/
def cfgInc : Config :=
  { defaultConfig with include_matcher := some (endsWithB ".md") }

/-- Configuration with only an exclude pattern matching *.log. -/
def cfgExc : Config :=
  { defaultConfig with exclude_matcher := some (endsWithB ".log") }

/-- Directory entry with a name sorting after the file below. -/
def eDirB : Entry :=
  { nameStr := some "b", path := "r/b", isDir := true, size := 0
    exec := false, canon := none, sub := dummyTree }

/-- File entry with a name sorting before the directory above. -/
def eFileA : Entry :=
  { nameStr := some "a", path := "r/a", isDir := false, size := 0
    exec := false, canon := none, sub := dummyTree }

/-- Claim C1 counterexample: in human-readable mode the code renders
1024 bytes as the plain byte count " [    1024]" — not as "1KB" (the
KB threshold test is strictly greater-than) — and similarly renders
1,048,576 bytes without any MB suffix. -/
theorem c1_counterexample :
    size_as_str true 1024 = " [    1024]" ∧
      size_as_str true 1024 ≠ " [     1KB]" ∧
      'K' ∉ (size_as_str true 1024).data ∧
      size_as_str true 1048576 ≠ " [     1MB]" := by decide

/-- Claim C1 (amended): in human-readable mode, size_as_str renders
1023 bytes in plain bytes; renders 1024 bytes in plain bytes as well,
since the KB threshold comparison is strict; and renders 1,048,576
bytes as "1024KB" (exactly the MB threshold, hence formatted in the
next lower unit), while 1025 bytes gives "1.00KB" and 1,048,577 bytes
gives "1.00MB". -/
theorem c1_size_thresholds :
    size_as_str true 1023 = " [    1023]" ∧
      size_as_str true 1024 = " [    1024]" ∧
      size_as_str true 1048576 = " [  1024KB]" ∧
      size_as_str true 1025 = " [  1.00KB]" ∧
      size_as_str true 1048577 = " [  1.00MB]" := by decide

/-- Claim C2, evaluated at the failing inputs: a size strictly between
GB_SIZE and TB_SIZE is scaled by GB_SIZE but labelled "TB" (aldar.rs
line 432), so 3 GiB renders as "3TB" and never as "3GB"; moreover
sizes in (2^50, 2^60] carry the suffix "EB" — a unit absent from the
claim's ladder — and the "PB" suffix only applies above 2^60. -/
theorem c2_unit_ladder_eval :
    size_as_str true 3221225472 = " [     3TB]" ∧
      size_as_str true 3221225472 ≠ " [     3GB]" ∧
      size_as_str true (2 ^ 51) = " [     2EB]" ∧
      size_as_str true (2 ^ 61) = " [     2PB]" := by decide

/-- Claim C3, evaluated at the failing input: with an include (or an
exclude) matcher configured, the filter closure of fetch_directory
reaches entry.file_name().to_str().unwrap() on a non-directory entry
whose file name is not valid UTF-8, and the unwrap of None panics
(modelled as the error outcome) instead of handling the entry. -/
theorem c3_filter_panic_eval :
    filterEntry { defaultConfig with include_matcher := some fun _ => true }
        (.ok badNameEntry) = .error () ∧
      filterEntry { defaultConfig with exclude_matcher := some fun _ => true }
        (.ok badNameEntry) = .error () := by
  exact ⟨rfl, rfl⟩

/-- Claim C7, evaluated at the failing input: installing a glyph set
whose item glyph has 1 character and whose last glyph has 2 characters
still caches the padding widths 3 and 4 — the character counts of
UNICODE_GLYPHSET's item and last glyphs — because use_glyphset
measures UNICODE_GLYPHSET instead of the glyph set it installs. -/
theorem c7_glyph_width_eval :
    (use_glyphset defaultConfig ⟨"|", "*-", "+"⟩).sz_item = 3 ∧
      (use_glyphset defaultConfig ⟨"|", "*-", "+"⟩).sz_last = 4 ∧
      (GlyphSet.mk "|" "*-" "+").item.length = 1 ∧
      (GlyphSet.mk "|" "*-" "+").last.length + 1 = 3 ∧
      (use_glyphset defaultConfig ⟨"|", "*-", "+"⟩).sz_item ≠
        (GlyphSet.mk "|" "*-" "+").item.length := by decide

/-- Claim C8 counterexample: for an entry whose path canonicalizes to
/x/a.txt with bare file name a.txt, computing the path relative to
base /y makes prefix-stripping fail, and the code returns the
placeholder "?" directly — not the bare file name the claim
promises. -/
theorem c8_counterexample :
    get_full_rel_path relEntry "/y" = "?" ∧
      relEntry.nameStr = some "a.txt" ∧
      get_full_rel_path relEntry "/y" ≠ "a.txt" := by decide

/-- Claim C8 (amended): get_full_rel_path canonicalizes the entry's
path, strips the base prefix, then strips one leading path separator;
when canonicalization fails it falls back to the bare file name, with
the placeholder "?" only when that name is unavailable; but when the
canonical path is not valid UTF-8 or the base is not a prefix of it,
the function returns "?" directly rather than the bare file name. -/
theorem c8_rel_path (e : Entry) (base p rel : String) :
    (e.canon = none → get_full_rel_path e base = e.nameStr.getD "?") ∧
      (e.canon = some none → get_full_rel_path e base = "?") ∧
      (e.canon = some (some p) → strip_pre_str p base = none →
        get_full_rel_path e base = "?") ∧
      (e.canon = some (some p) → strip_pre_str p base = some rel →
        get_full_rel_path e base = (strip_pre_char rel MAIN_SEPARATOR).getD rel) := by
  refine ⟨?_, ?_, ?_, ?_⟩
  · intro h
    simp only [get_full_rel_path, h]
    cases e.nameStr <;> rfl
  · intro h
    simp [get_full_rel_path, h]
  · intro h hs
    simp [get_full_rel_path, h, hs]
  · intro h hs
    simp only [get_full_rel_path, h, hs]
    cases strip_pre_char rel MAIN_SEPARATOR <;> rfl

/-- Claim C8 witness: the four branches of c8_rel_path at concrete
inputs — canonicalization failure falls back to the bare name, a
non-UTF-8 canonical path gives "?", a failing prefix strip gives "?",
and a successful strip gives the separator-stripped remainder. -/
theorem c8_witness :
    get_full_rel_path ⟨some "n", "p", false, 0, false, none, dummyTree⟩ "/b" =
        (Option.getD (some "n") "?") ∧
      get_full_rel_path ⟨some "n", "p", false, 0, false, some none, dummyTree⟩ "/b" = "?" ∧
      get_full_rel_path relEntry "/y" = "?" ∧
      get_full_rel_path relEntry "/x" =
        (strip_pre_char "/a.txt" MAIN_SEPARATOR).getD "/a.txt" :=
  ⟨(c8_rel_path _ "/b" "" "").1 rfl,
    (c8_rel_path _ "/b" "" "").2.1 rfl,
    (c8_rel_path relEntry "/y" "/x/a.txt" "").2.2.1 rfl (by decide),
    (c8_rel_path relEntry "/x" "/x/a.txt" "/a.txt").2.2.2 rfl (by decide)⟩

/-- Claim C6: the per-entry filter rejects hidden entries when hidden
files are not shown; applies the pattern sets only to non-directories
(a directory is kept whenever it passes the hidden check, with no
matcher consulted); rejects a file whose name matches none of a
configured include set; and rejects a file whose name matches a
configured exclude set (when the include set, if any, admits it). -/
theorem c6_filter_pipeline (cfg : Config) (e : Entry) (s : String)
    (mi me : String → Bool) :
    (cfg.show_hidden_files = false → is_hidden e = true →
        filterEntry cfg (.ok e) = .ok none) ∧
      (e.isDir = true →
        filterEntry cfg (.ok e) =
          if !cfg.show_hidden_files && is_hidden e then .ok none
          else .ok (some e)) ∧
      ((!cfg.show_hidden_files && is_hidden e) = false → e.isDir = false →
        e.nameStr = some s → cfg.include_matcher = some mi → mi s = false →
        filterEntry cfg (.ok e) = .ok none) ∧
      ((!cfg.show_hidden_files && is_hidden e) = false → e.isDir = false →
        e.nameStr = some s → Option.all (fun m => m s) cfg.include_matcher = true →
        cfg.exclude_matcher = some me → me s = true →
        filterEntry cfg (.ok e) = .ok none) := by
  refine ⟨?_, ?_, ?_, ?_⟩
  · intro h1 h2
    simp [filterEntry, h1, h2]
  · intro hd
    simp [filterEntry, hd]
  · intro hh hd hn hi hm
    simp [filterEntry, hh, hd, hn, hi, hm]
  · intro hh hd hn hall hexc hm
    cases hmi : cfg.include_matcher with
    | none => simp [filterEntry, filterExclude, hh, hd, hn, hexc, hm, hmi]
    | some mi0 =>
      have hms : mi0 s = true := by simpa [hmi] using hall
      simp [filterEntry, filterExclude, hh, hd, hn, hexc, hm, hmi, hms]

/-- Claim C6 witness: the four filter rules at concrete inputs — a
hidden file is dropped by default, a directory passes untouched by the
include matcher, a file missing the include set is dropped, and a file
matching the exclude set is dropped. -/
theorem c6_witness :
    filterEntry defaultConfig (.ok eHidden) = .ok none ∧
      filterEntry cfgInc (.ok eDirE) =
        (if !cfgInc.show_hidden_files && is_hidden eDirE then .ok none
          else .ok (some eDirE)) ∧
      filterEntry cfgInc (.ok eTxt) = .ok none ∧
      filterEntry cfgExc (.ok eLog) = .ok none :=
  ⟨(c6_filter_pipeline defaultConfig eHidden "" (fun _ => true) (fun _ => true)).1
      rfl (by decide),
    (c6_filter_pipeline cfgInc eDirE "" (fun _ => true) (fun _ => true)).2.1 rfl,
    (c6_filter_pipeline cfgInc eTxt "a.txt" (endsWithB ".md") (fun _ => true)).2.2.1
      (by decide) rfl rfl rfl (by decide),
    (c6_filter_pipeline cfgExc eLog "b.log" (fun _ => true) (endsWithB ".log")).2.2.2
      (by decide) rfl rfl (by decide) rfl (by decide)⟩

/-- Strict comparison test for charCmp in terms of code points. -/
theorem charCmp_lt_iff {a b : Char} : charCmp a b = .lt ↔ a.toNat < b.toNat := by
  unfold charCmp
  split
  · rename_i h
    simp [h]
  · split
    · rename_i h h2
      simp [h]
    · rename_i h h2
      simp [h]

/-- Characters comparing equal are equal. -/
theorem charCmp_eq {a b : Char} (h : charCmp a b = .eq) : a = b := by
  unfold charCmp at h
  split at h
  · exact nomatch h
  · split at h
    · exact nomatch h
    · rename_i h1 h2
      simp only [Char.toNat] at h1 h2
      exact Char.eq_of_val_eq (UInt32.toNat.inj (by omega))

/-- Reflexivity of charCmp. -/
theorem charCmp_self (a : Char) : charCmp a a = .eq := by
  simp [charCmp]

/-- Swapping the arguments of charCmp swaps the ordering. -/
theorem charCmp_swap (a b : Char) : charCmp b a = (charCmp a b).swap := by
  unfold charCmp
  by_cases h1 : a.toNat < b.toNat
  · have h2 : ¬ b.toNat < a.toNat := by omega
    simp [h1, h2, Ordering.swap]
  · by_cases h2 : b.toNat < a.toNat
    · simp [h1, h2, Ordering.swap]
    · simp [h1, h2, Ordering.swap]

/-- Lists comparing equal under lexCmp are equal. -/
theorem lexCmp_eq : ∀ {s t : List Char}, lexCmp s t = .eq → s = t
  | [], [], _ => rfl
  | [], _ :: _, h => nomatch h
  | _ :: _, [], h => nomatch h
  | a :: as, b :: bs, h => by
    simp only [lexCmp] at h
    cases hc : charCmp a b with
    | lt => rw [hc] at h; exact nomatch h
    | gt => rw [hc] at h; exact nomatch h
    | eq =>
      rw [hc] at h
      rw [charCmp_eq hc, lexCmp_eq h]

/-- Swapping the arguments of lexCmp swaps the ordering. -/
theorem lexCmp_swap : ∀ (s t : List Char), lexCmp t s = (lexCmp s t).swap
  | [], [] => rfl
  | [], _ :: _ => rfl
  | _ :: _, [] => rfl
  | a :: as, b :: bs => by
    simp only [lexCmp, charCmp_swap a b]
    cases hc : charCmp a b with
    | lt => simp [Ordering.swap]
    | gt => simp [Ordering.swap]
    | eq => simp [Ordering.swap, lexCmp_swap as bs]

/-- Transitivity of strict lexicographic precedence. -/
theorem lexCmp_lt_trans : ∀ {s t u : List Char},
    lexCmp s t = .lt → lexCmp t u = .lt → lexCmp s u = .lt
  | [], _ :: _, [], _, h2 => nomatch h2
  | [], _ :: _, _ :: _, _, _ => rfl
  | _ :: _, [], _, h1, _ => nomatch h1
  | _ :: _, _ :: _, [], _, h2 => nomatch h2
  | a :: as, b :: bs, c :: cs, h1, h2 => by
    simp only [lexCmp] at h1 h2 ⊢
    cases hab : charCmp a b with
    | gt => rw [hab] at h1; exact nomatch h1
    | lt =>
      cases hbc : charCmp b c with
      | gt => rw [hbc] at h2; exact nomatch h2
      | lt =>
        have hac : charCmp a c = .lt := by
          rw [charCmp_lt_iff] at hab hbc ⊢
          omega
        rw [hac]
      | eq =>
        have hbc' := charCmp_eq hbc
        subst hbc'
        rw [hab]
    | eq =>
      have hab' := charCmp_eq hab
      subst hab'
      rw [hab] at h1
      cases hbc : charCmp a c with
      | gt => rw [hbc] at h2; exact nomatch h2
      | lt => rfl
      | eq =>
        rw [hbc] at h2
        exact lexCmp_lt_trans h1 h2

/-- Equality of strings from equality of their character lists. -/
theorem strOfData {s t : String} (h : s.data = t.data) : s = t := by
  cases s
  cases t
  congr

/-- Claim C9: the sibling sort comparator is a strict total order:
a directory orders before a file and a file after a directory
regardless of names; entries of the same kind compare lexicographically
by full path; a tie forces identical paths; the comparator is
antisymmetric under argument swap and its strict part is transitive. -/
theorem c9_sort_order (a b c : Entry) :
    (a.isDir = true → b.isDir = false → cmpEntries a b = .lt) ∧
      (a.isDir = false → b.isDir = true → cmpEntries a b = .gt) ∧
      (a.isDir = b.isDir → cmpEntries a b = lexCmp a.path.data b.path.data) ∧
      (cmpEntries a b = .eq → a.path = b.path) ∧
      cmpEntries b a = (cmpEntries a b).swap ∧
      (cmpEntries a b = .lt → cmpEntries b c = .lt → cmpEntries a c = .lt) := by
  refine ⟨?_, ?_, ?_, ?_, ?_, ?_⟩
  · intro h1 h2
    simp [cmpEntries, h1, h2]
  · intro h1 h2
    simp [cmpEntries, h1, h2]
  · intro h
    cases hb : b.isDir <;> rw [hb] at h <;> simp [cmpEntries, h, hb]
  · intro h
    cases ha : a.isDir <;> cases hb : b.isDir <;> simp [cmpEntries, ha, hb] at h <;>
      exact strOfData (lexCmp_eq h)
  · cases ha : a.isDir <;> cases hb : b.isDir <;>
      simp [cmpEntries, ha, hb, Ordering.swap] <;>
      exact lexCmp_swap _ _
  · intro h1 h2
    cases ha : a.isDir <;> cases hb : b.isDir <;> cases hc : c.isDir <;>
      simp [cmpEntries, ha, hb, hc] at h1 h2 ⊢ <;>
      exact lexCmp_lt_trans h1 h2

/-- Claim C9 witness: the comparator at concrete sibling entries — the
directory r/b sorts before the file r/a even though "a" precedes "b",
the reverse comparison yields gt, same-kind entries compare by path,
a self-comparison ties only with itself, and a concrete transitivity
instance. -/
theorem c9_witness :
    cmpEntries eDirB eFileA = .lt ∧
      cmpEntries eFileA eDirB = .gt ∧
      cmpEntries eTxt eLog = lexCmp eTxt.path.data eLog.path.data ∧
      eTxt.path = eTxt.path ∧
      (cmpEntries eTxt eLog = .lt → cmpEntries eLog eTxt = .lt →
        cmpEntries eTxt eTxt = .lt) :=
  ⟨(c9_sort_order eDirB eFileA eTxt).1 rfl rfl,
    (c9_sort_order eFileA eDirB eTxt).2.1 rfl rfl,
    (c9_sort_order eTxt eLog eLog).2.2.1 rfl,
    (c9_sort_order eTxt eTxt eTxt).2.2.2.1 (by decide),
    (c9_sort_order eTxt eLog eTxt).2.2.2.2.2⟩

/-- Rendering a line never touches the indent stack (print_entry works
on a clone). -/
theorem print_entry_indent (cfg : Config) (e : Entry) (last : Bool) (st : St) :
    (print_entry cfg e last st).indent = st.indent := by
  unfold print_entry
  cases e.nameStr <;> rfl

/-- The frame pushed by do_indent is exactly one element on top of the
existing stack. -/
theorem do_indent_indent (cfg : Config) (b : Bool) (st : St) :
    (do_indent cfg b st).indent =
      st.indent ++ [if b then spaces cfg.sz_last else cfg.glyphs.pipe ++ spaces cfg.sz_item] := by
  cases b <;> rfl

/-- The filter pass only advances the statistics counters: indent stack
and written output are untouched. -/
theorem runFilter_state {cfg : Config} : ∀ {l : List Entry} {st : St}
    {es : List Entry} {st' : St},
    runFilter cfg l st = .ok (es, st') → st'.indent = st.indent ∧ st'.out = st.out := by
  intro l
  induction l with
  | nil =>
    intro st es st' h
    simp only [runFilter, Except.ok.injEq, Prod.mk.injEq] at h
    rw [← h.2]
    exact ⟨rfl, rfl⟩
  | cons e rest ih =>
    intro st es st' h
    simp only [runFilter] at h
    split at h
    · exact nomatch h
    · exact ih h
    · rename_i e' heq
      split at h
      · exact nomatch h
      · rename_i es2 st2 heq2
        simp only [Except.ok.injEq, Prod.mk.injEq] at h
        rw [← h.2]
        have h2 := ih heq2
        cases hd : e'.isDir <;> rw [hd] at h2 <;> simpa using h2

/-- Fetching a directory only advances the statistics counters. -/
theorem fetch_state {cfg : Config} {wd : String} {t : FTree} {st : St}
    {es : List Entry} {st' : St}
    (h : fetch_directory cfg wd t st = .ok (es, st')) :
    st'.indent = st.indent ∧ st'.out = st.out := by
  unfold fetch_directory at h
  have hread : ∀ (h' : fetch_read cfg wd t st = .ok (es, st')),
      st'.indent = st.indent ∧ st'.out = st.out := by
    intro h'
    unfold fetch_read at h'
    cases hr : t.readable <;> rw [hr] at h'
    · exact nomatch h'
    · simp only [if_true] at h'
      cases hrf : runFilter cfg (t.children.map (entryOf wd)) st with
      | error u => rw [hrf] at h'; exact nomatch h'
      | ok pr =>
        rw [hrf] at h'
        obtain ⟨es2, st2⟩ := pr
        simp only [Except.ok.injEq, Prod.mk.injEq] at h'
        rw [← h'.2]
        exact runFilter_state hrf
  cases hm : cfg.exclude_matcher with
  | none =>
    simp only [hm] at h
    exact hread h
  | some m =>
    simp only [hm] at h
    by_cases hw : m wd = true
    · rw [if_pos hw] at h
      simp only [Except.ok.injEq, Prod.mk.injEq] at h
      rw [← h.2]
      exact ⟨rfl, rfl⟩
    · rw [if_neg hw] at h
      exact hread h

/-- The sibling loop restores the indent stack provided each recursive
descent does: each frame the loop pushes is popped right after the
descent returns. -/
theorem show_entries_indent {cfg : Config} {recur : Entry → St → Option St} {sz : Nat}
    (hrec : ∀ e s0 s0', recur e s0 = some s0' → s0'.indent = s0.indent) :
    ∀ {l : List Entry} {i : Nat} {st st' : St},
    show_entries cfg recur sz l i st = some st' → st'.indent = st.indent := by
  intro l
  induction l with
  | nil =>
    intro i st st' h
    simp only [show_entries, Option.some.injEq] at h
    rw [← h]
  | cons e rest ih =>
    intro i st st' h
    simp only [show_entries] at h
    cases hd : e.isDir <;> simp only [hd] at h
    · rw [ih h, print_entry_indent]
    · cases hr : recur e (do_indent cfg (sz == i + 1) (print_entry cfg e (sz == i + 1) st)) with
      | none => rw [hr] at h; exact nomatch h
      | some st2 =>
        rw [hr] at h
        rw [ih h]
        show st2.indent.dropLast = st.indent
        rw [hrec _ _ _ hr, do_indent_indent, List.dropLast_concat, print_entry_indent]

/-- Claim C10: the indent stack obeys a strict push/pop discipline:
a complete show_dir call returns the stack at exactly its pre-call
value, do_indent pushes exactly one frame (stack length grows by one),
and do_unindent undoes a do_indent exactly, so the stack length equals
the recursion depth at every render. -/
theorem c10_indent_stack :
    (∀ (cfg : Config) (fuel : Nat) (wd : String) (t : FTree) (lvl : Int) (st st' : St),
        show_dir cfg fuel wd t lvl st = some st' → st'.indent = st.indent) ∧
      (∀ (cfg : Config) (b : Bool) (st : St),
        (do_indent cfg b st).indent.length = st.indent.length + 1) ∧
      (∀ (cfg : Config) (b : Bool) (st : St), do_unindent (do_indent cfg b st) = st) := by
  refine ⟨?_, ?_, ?_⟩
  · intro cfg fuel
    induction fuel with
    | zero =>
      intro wd t lvl st st' h
      simp only [show_dir, Option.some.injEq] at h
      rw [← h]
    | succ n ih =>
      intro wd t lvl st st' h
      simp only [show_dir] at h
      by_cases hg : (cfg.level > -1 ∧ lvl > cfg.level)
      · rw [if_pos hg] at h
        simp only [Option.some.injEq] at h
        rw [← h]
      · rw [if_neg hg] at h
        cases hf : fetch_directory cfg wd t st with
        | error err =>
          rw [hf] at h
          cases err with
          | abort => exact nomatch h
          | io =>
            simp only [Option.some.injEq] at h
            rw [← h]
        | ok pr =>
          rw [hf] at h
          obtain ⟨dirs, st1⟩ := pr
          have hse := show_entries_indent (fun e s0 s0' hr => ih _ _ _ _ _ hr) h
          rw [hse, (fetch_state hf).1]
  · intro cfg b st
    rw [do_indent_indent]
    simp
  · intro cfg b st
    cases b <;>
      simp [do_indent, do_unindent, List.dropLast_concat]

/-- Claim C10 witness: a complete concrete walk returns the (empty)
indent stack unchanged, and one push followed by one pop is the
identity on a concrete state. -/
theorem c10_witness :
    St.indent ⟨1, 1, [], ["└── node_modules", "    └── x.txt"]⟩ = St.indent st0 ∧
      (do_indent defaultConfig true st0).indent.length = st0.indent.length + 1 ∧
      do_unindent (do_indent defaultConfig true st0) = st0 :=
  ⟨c10_indent_stack.1 defaultConfig 10 "root" tExcl 0 st0 _ (by decide),
    c10_indent_stack.2.1 defaultConfig true st0,
    c10_indent_stack.2.2 defaultConfig true st0⟩

/-- Claim C4 counterexample: with the exclude pattern matching
node_modules and an include pattern matching the x.txt inside it, the
excluded directory still contributes one output line — its own entry
line in the parent listing — so its contribution is not zero lines. -/
theorem c4_counterexample :
    show_dir cfgExcl 10 "root" tExcl 0 st0 =
        some ⟨1, 0, [], ["└── node_modules"]⟩ ∧
      (St.out ⟨1, 0, [], ["└── node_modules"]⟩).length = 1 ∧
      ["└── node_modules"] ≠ ([] : List String) := by decide

/-- Claim C4 (amended): when the exclude set matches a directory's own
path, listing it returns an empty child list rather than an error, and
descending into it leaves the traversal state entirely unchanged — the
whole subtree beneath it is skipped and contributes no output lines,
even when it contains files matching an include pattern; the excluded
directory's own line, however, is still rendered by its parent (see
the counterexample). -/
theorem c4_exclude_subtree (cfg : Config) (m : String → Bool) (fuel : Nat)
    (wd : String) (t : FTree) (lvl : Int) (st : St)
    (hm : cfg.exclude_matcher = some m) (hwd : m wd = true) :
    fetch_directory cfg wd t st = .ok ([], st) ∧
      show_dir cfg fuel wd t lvl st = some st := by
  have hf : fetch_directory cfg wd t st = .ok ([], st) := by
    simp [fetch_directory, hm, hwd]
  refine ⟨hf, ?_⟩
  cases fuel with
  | zero => rfl
  | succ n =>
    simp only [show_dir]
    by_cases hg : (cfg.level > -1 ∧ lvl > cfg.level)
    · rw [if_pos hg]
    · rw [if_neg hg, hf]
      rfl

/-- Claim C4 witness: the node_modules subtree of the counterexample
tree, entered at its own path, yields an empty listing and an
unchanged state. -/
theorem c4_witness :
    fetch_directory cfgExcl "root/node_modules" tNM st0 = .ok ([], st0) ∧
      show_dir cfgExcl 10 "root/node_modules" tNM 1 st0 = some st0 :=
  c4_exclude_subtree cfgExcl (endsWithB "node_modules") 10 "root/node_modules" tNM 1 st0
    rfl (by decide)

/-- Projections through mapSub: the entry metadata is untouched. -/
theorem mapSub_isDir (g : FTree → FTree) (e : Entry) : (mapSub g e).isDir = e.isDir := rfl

/-- Name projection through mapSub. -/
theorem mapSub_nameStr (g : FTree → FTree) (e : Entry) : (mapSub g e).nameStr = e.nameStr := rfl

/-- Hidden test through mapSub. -/
theorem is_hidden_mapSub (g : FTree → FTree) (e : Entry) :
    is_hidden (mapSub g e) = is_hidden e := rfl

/-- Rendering through mapSub: print_entry reads no field that mapSub
changes. -/
theorem print_entry_mapSub (cfg : Config) (g : FTree → FTree) (e : Entry)
    (last : Bool) (st : St) :
    print_entry cfg (mapSub g e) last st = print_entry cfg e last st := rfl

/-- The comparator reads only kind and path, so it is invariant under
mapSub. -/
theorem cmpEntries_mapSub (g : FTree → FTree) (a b : Entry) :
    cmpEntries (mapSub g a) (mapSub g b) = cmpEntries a b := rfl

/-- Metadata of a cut tree: name unchanged. -/
theorem prune_name (k : Nat) (t : FTree) : (prune k t).name = t.name := by
  cases t <;> cases k <;> rfl

/-- Metadata of a cut tree: kind unchanged. -/
theorem prune_isDir (k : Nat) (t : FTree) : (prune k t).isDir = t.isDir := by
  cases t <;> cases k <;> rfl

/-- Metadata of a cut tree: size unchanged. -/
theorem prune_size (k : Nat) (t : FTree) : (prune k t).size = t.size := by
  cases t <;> cases k <;> rfl

/-- Metadata of a cut tree: executable bit unchanged. -/
theorem prune_exec (k : Nat) (t : FTree) : (prune k t).exec = t.exec := by
  cases t <;> cases k <;> rfl

/-- Metadata of a cut tree: readability unchanged. -/
theorem prune_readable (k : Nat) (t : FTree) : (prune k t).readable = t.readable := by
  cases t <;> cases k <;> rfl

/-- Children of a tree cut at a positive depth are the cut children. -/
theorem prune_children_succ (k : Nat) (t : FTree) :
    (prune (k + 1) t).children = t.children.map (prune k) := by
  cases t <;> rfl

/-- A tree cut at depth zero has no children. -/
theorem prune_children_zero (t : FTree) : (prune 0 t).children = [] := by
  cases t <;> rfl

/-- The entry of a cut child is the entry of the child with the cut
subtree handle. -/
theorem entryOf_prune (wd : String) (k : Nat) (c : FTree) :
    entryOf wd (prune k c) = mapSub (prune k) (entryOf wd c) := by
  simp [entryOf, mapSub, prune_name, prune_isDir, prune_size, prune_exec]

/-- The exclude half of the filter commutes with mapSub. -/
theorem filterExclude_mapSub (cfg : Config) (g : FTree → FTree) (e : Entry) :
    filterExclude cfg (mapSub g e) =
      Except.map (Option.map (mapSub g)) (filterExclude cfg e) := by
  unfold filterExclude
  cases cfg.exclude_matcher with
  | none => rfl
  | some m =>
    simp only [mapSub_nameStr]
    cases e.nameStr with
    | none => rfl
    | some s =>
      show (if m s = true then Except.ok none else Except.ok (some (mapSub g e))) =
        Except.map (Option.map (mapSub g))
          (if m s = true then Except.ok none else Except.ok (some e))
      by_cases hm : m s = true
      · rw [if_pos hm, if_pos hm]
        rfl
      · rw [if_neg hm, if_neg hm]
        rfl

/-- The filter closure commutes with mapSub: it inspects no field that
mapSub changes, and returns the entry it was given. -/
theorem filterEntry_mapSub (cfg : Config) (g : FTree → FTree) (e : Entry) :
    filterEntry cfg (.ok (mapSub g e)) =
      Except.map (Option.map (mapSub g)) (filterEntry cfg (.ok e)) := by
  simp only [filterEntry, is_hidden_mapSub, mapSub_isDir, mapSub_nameStr]
  by_cases h1 : (!cfg.show_hidden_files && is_hidden e) = true
  · rw [if_pos h1, if_pos h1]
    rfl
  · rw [if_neg h1, if_neg h1]
    by_cases h2 : e.isDir = true
    · rw [if_pos h2, if_pos h2]
      rfl
    · rw [if_neg h2, if_neg h2]
      cases cfg.include_matcher with
      | none => exact filterExclude_mapSub cfg g e
      | some mi =>
        cases e.nameStr with
        | none => rfl
        | some s =>
          show (if (!mi s) = true then Except.ok none else filterExclude cfg (mapSub g e)) =
            Except.map (Option.map (mapSub g))
              (if (!mi s) = true then Except.ok none else filterExclude cfg e)
          by_cases hm : (!mi s) = true
          · rw [if_pos hm, if_pos hm]
            rfl
          · rw [if_neg hm, if_neg hm]
            exact filterExclude_mapSub cfg g e

/-- Prepending a kept entry to a filter-pass result commutes with
mapSub over the result. -/
theorem consFilter_map (g : FTree → FTree) (e' : Entry)
    (x : Except Unit (List Entry × St)) :
    (match Except.map (fun p => (p.1.map (mapSub g), p.2)) x with
      | .error u => .error u
      | .ok (es, st'') => .ok (mapSub g e' :: es, st'')) =
      Except.map (fun p => (p.1.map (mapSub g), p.2))
        (match x with
          | .error u => (.error u : Except Unit (List Entry × St))
          | .ok (es, st'') => .ok (e' :: es, st'')) := by
  cases x with
  | error u => rfl
  | ok pr =>
    obtain ⟨es, st''⟩ := pr
    rfl

/-- The filter pass commutes with mapSub over the listed entries. -/
theorem runFilter_mapSub (cfg : Config) (g : FTree → FTree) :
    ∀ (l : List Entry) (st : St),
    runFilter cfg (l.map (mapSub g)) st =
      Except.map (fun p => (p.1.map (mapSub g), p.2)) (runFilter cfg l st) := by
  intro l
  induction l with
  | nil => intro st; rfl
  | cons e rest ih =>
    intro st
    simp only [List.map_cons, runFilter, filterEntry_mapSub cfg g e]
    cases hf : filterEntry cfg (.ok e) with
    | error u => rfl
    | ok o =>
      cases o with
      | none =>
        simp only [Except.map, Option.map]
        exact ih st
      | some e' =>
        simp only [Except.map, Option.map, mapSub_isDir]
        rw [ih]
        exact consFilter_map g e' _

/-- Stable insertion commutes with mapSub. -/
theorem insertSorted_mapSub (g : FTree → FTree) (e : Entry) :
    ∀ (l : List Entry),
    insertSorted (mapSub g e) (l.map (mapSub g)) = (insertSorted e l).map (mapSub g) := by
  intro l
  induction l with
  | nil => rfl
  | cons x xs ih =>
    simp only [List.map_cons, insertSorted, cmpEntries_mapSub]
    by_cases hc : cmpEntries x e = .gt
    · rw [if_pos hc, if_pos hc]
      rfl
    · rw [if_neg hc, if_neg hc]
      rw [ih]
      rfl

/-- The stable sort commutes with mapSub (the comparator ignores the
subtree handle). -/
theorem sort_by_mapSub (g : FTree → FTree) (l : List Entry) :
    sort_by (l.map (mapSub g)) = (sort_by l).map (mapSub g) := by
  have h : ∀ (l acc : List Entry),
      (l.map (mapSub g)).foldl (fun acc e => insertSorted e acc) (acc.map (mapSub g)) =
        (l.foldl (fun acc e => insertSorted e acc) acc).map (mapSub g) := by
    intro l
    induction l with
    | nil => intro acc; rfl
    | cons e rest ih =>
      intro acc
      simp only [List.map_cons, List.foldl]
      rw [insertSorted_mapSub, ih]
  exact h l []

/-- Fetching a tree cut at positive depth yields the same filtered and
sorted listing with each entry's subtree handle cut one level less. -/
theorem fetch_read_prune (cfg : Config) (wd : String) (k : Nat) (t : FTree) (st : St) :
    fetch_read cfg wd (prune (k + 1) t) st =
      Except.map (fun p => (p.1.map (mapSub (prune k)), p.2)) (fetch_read cfg wd t st) := by
  have hch : (prune (k + 1) t).children.map (entryOf wd) =
      (t.children.map (entryOf wd)).map (mapSub (prune k)) := by
    rw [prune_children_succ]
    have h : ∀ cs : List FTree,
        (cs.map (prune k)).map (entryOf wd) =
          (cs.map (entryOf wd)).map (mapSub (prune k)) := by
      intro cs
      induction cs with
      | nil => rfl
      | cons c cr ih => simp only [List.map_cons, entryOf_prune, ih]
    exact h t.children
  unfold fetch_read
  rw [prune_readable]
  cases hr : t.readable
  · rfl
  · simp only [if_pos rfl]
    rw [hch, runFilter_mapSub]
    cases hrf : runFilter cfg (t.children.map (entryOf wd)) st with
    | error u => rfl
    | ok pr =>
      obtain ⟨es, st'⟩ := pr
      simp [Except.map, sort_by_mapSub]

/-- fetch_directory on a cut tree: the directory-level exclude check
sees the same path, so the whole fetch commutes with cutting. -/
theorem fetch_prune (cfg : Config) (wd : String) (k : Nat) (t : FTree) (st : St) :
    fetch_directory cfg wd (prune (k + 1) t) st =
      Except.map (fun p => (p.1.map (mapSub (prune k)), p.2)) (fetch_directory cfg wd t st) := by
  unfold fetch_directory
  cases hm : cfg.exclude_matcher with
  | none => exact fetch_read_prune cfg wd k t st
  | some m =>
    show (if m wd = true then Except.ok ([], st) else fetch_read cfg wd (prune (k + 1) t) st) =
      Except.map (fun p => (p.1.map (mapSub (prune k)), p.2))
        (if m wd = true then Except.ok ([], st) else fetch_read cfg wd t st)
    by_cases hw : m wd = true
    · rw [if_pos hw, if_pos hw]
      rfl
    · rw [if_neg hw, if_neg hw]
      exact fetch_read_prune cfg wd k t st

/-- Fetching a childless tree yields the empty listing or, when the
node is unreadable, the io error that show_dir swallows. -/
theorem fetch_nil (cfg : Config) (wd : String) (t : FTree) (st : St)
    (ht : t.children = []) :
    fetch_directory cfg wd t st = .ok ([], st) ∨
      fetch_directory cfg wd t st = .error .io := by
  unfold fetch_directory fetch_read
  rw [ht]
  cases hm : cfg.exclude_matcher with
  | none =>
    cases hr : t.readable
    · exact Or.inr (by simp)
    · exact Or.inl (by simp [runFilter, sort_by])
  | some m =>
    by_cases hw : m wd = true
    · exact Or.inl (by simp [hw])
    · cases hr : t.readable
      · exact Or.inr (by simp [hw])
      · exact Or.inl (by simp [hw, runFilter, sort_by])

/-- The unlimited walker does nothing on a childless node beyond the
fetch: the state comes back unchanged. -/
theorem show_dirNoLimit_nil (cfg : Config) (t : FTree) (ht : t.children = [])
    (fuel : Nat) (wd : String) (lvl : Int) (st : St) :
    show_dirNoLimit cfg fuel wd t lvl st = some st := by
  cases fuel with
  | zero => rfl
  | succ n =>
    simp only [show_dirNoLimit]
    rcases fetch_nil cfg wd t st ht with hf | hf <;> simp [hf, show_entries]

/-- Pointwise equal descents make the sibling loop agree. -/
theorem show_entries_congr (cfg : Config) (r1 r2 : Entry → St → Option St) (sz : Nat)
    (hr : ∀ e st0, r1 e st0 = r2 e st0) :
    ∀ (l : List Entry) (i : Nat) (st : St),
    show_entries cfg r1 sz l i st = show_entries cfg r2 sz l i st := by
  intro l
  induction l with
  | nil => intro i st; rfl
  | cons e rest ih =>
    intro i st
    simp only [show_entries]
    by_cases hd : e.isDir = true
    · rw [if_pos hd, if_pos hd]
      rw [hr e (do_indent cfg (sz == i + 1) (print_entry cfg e (sz == i + 1) st))]
      cases r2 e (do_indent cfg (sz == i + 1) (print_entry cfg e (sz == i + 1) st)) with
      | none => rfl
      | some st2 => exact ih (i + 1) (do_unindent st2)
    · rw [if_neg hd, if_neg hd]
      exact ih (i + 1) (print_entry cfg e (sz == i + 1) st)

/-- The sibling loop over entries with cut subtree handles agrees with
the loop over the original entries when the descents agree
accordingly. -/
theorem show_entries_mapSub (cfg : Config) (r1 r2 : Entry → St → Option St)
    (g : FTree → FTree) (sz : Nat)
    (hr : ∀ e st0, r2 (mapSub g e) st0 = r1 e st0) :
    ∀ (l : List Entry) (i : Nat) (st : St),
    show_entries cfg r2 sz (l.map (mapSub g)) i st = show_entries cfg r1 sz l i st := by
  intro l
  induction l with
  | nil => intro i st; rfl
  | cons e rest ih =>
    intro i st
    simp only [List.map_cons, show_entries, print_entry_mapSub, mapSub_isDir]
    by_cases hd : e.isDir = true
    · rw [if_pos hd, if_pos hd]
      rw [hr e (do_indent cfg (sz == i + 1) (print_entry cfg e (sz == i + 1) st))]
      cases r1 e (do_indent cfg (sz == i + 1) (print_entry cfg e (sz == i + 1) st)) with
      | none => rfl
      | some st2 => exact ih (i + 1) (do_unindent st2)
    · rw [if_neg hd, if_neg hd]
      exact ih (i + 1) (print_entry cfg e (sz == i + 1) st)

/-- Claim C5: depth-limit semantics. A configured level of -1 makes
the walk identical to the unlimited walk at every fuel; a non-negative
level L makes the walk from level lvl identical to the unlimited walk
of the tree cut (L - lvl + 1) levels down, i.e. directories at depth
up to L are expanded and anything deeper is listed but never descended
into; and with level 0 only the root's immediate children render, as
the concrete run shows. -/
theorem c5_depth_limit :
    (∀ (cfg : Config) (fuel : Nat) (wd : String) (t : FTree) (lvl : Int) (st : St),
        cfg.level = -1 →
        show_dir cfg fuel wd t lvl st = show_dirNoLimit cfg fuel wd t lvl st) ∧
      (∀ (cfg : Config) (fuel : Nat) (wd : String) (t : FTree) (lvl : Int) (st : St),
        0 ≤ cfg.level →
        show_dir cfg fuel wd t lvl st =
          show_dirNoLimit cfg fuel wd (prune (cfg.level - lvl + 1).toNat t) lvl st) ∧
      show_dir { defaultConfig with level := 0 } 10 "root" tExcl 0 st0 =
        some ⟨1, 0, [], ["└── node_modules"]⟩ := by
  refine ⟨?_, ?_, by decide⟩
  · intro cfg fuel
    induction fuel with
    | zero => intro wd t lvl st hlvl; rfl
    | succ n ih =>
      intro wd t lvl st hlvl
      have hg : ¬ (cfg.level > -1 ∧ lvl > cfg.level) := by
        rw [hlvl]
        intro hc
        exact absurd hc.1 (by omega)
      simp only [show_dir, show_dirNoLimit]
      rw [if_neg hg]
      cases hf : fetch_directory cfg wd t st with
      | error err => cases err <;> rfl
      | ok pr =>
        obtain ⟨dirs, st1⟩ := pr
        exact show_entries_congr cfg
          (fun e st' => show_dir cfg n e.path e.sub (lvl + 1) st')
          (fun e st' => show_dirNoLimit cfg n e.path e.sub (lvl + 1) st')
          dirs.length
          (fun e st0 => ih e.path e.sub (lvl + 1) st0 hlvl) dirs 0 st1
  · intro cfg fuel
    induction fuel with
    | zero => intro wd t lvl st hlvl; rfl
    | succ n ih =>
      intro wd t lvl st hlvl
      by_cases hg : (cfg.level > -1 ∧ lvl > cfg.level)
      · have hb : (cfg.level - lvl + 1).toNat = 0 := by omega
        rw [hb]
        have hL : show_dir cfg (n + 1) wd t lvl st = some st := by
          simp only [show_dir]
          rw [if_pos hg]
        rw [hL, show_dirNoLimit_nil cfg (prune 0 t) (prune_children_zero t) (n + 1) wd lvl st]
      · have hb : (cfg.level - lvl + 1).toNat = (cfg.level - (lvl + 1) + 1).toNat + 1 := by
          omega
        rw [hb]
        simp only [show_dir, show_dirNoLimit]
        rw [if_neg hg]
        rw [fetch_prune cfg wd ((cfg.level - (lvl + 1) + 1).toNat) t st]
        cases hf : fetch_directory cfg wd t st with
        | error err => cases err <;> rfl
        | ok pr =>
          obtain ⟨dirs, st1⟩ := pr
          simp only [Except.map]
          rw [List.length_map]
          exact (show_entries_mapSub cfg
            (fun e st' => show_dir cfg n e.path e.sub (lvl + 1) st')
            (fun e st' => show_dirNoLimit cfg n e.path e.sub (lvl + 1) st')
            (prune ((cfg.level - (lvl + 1) + 1).toNat))
            dirs.length
            (fun e st0 => (ih e.path e.sub (lvl + 1) st0 hlvl).symm) dirs 0 st1).symm


/-- Claim C5 witness: the two depth-limit equalities at a concrete
configuration and tree — the default level -1 walk coincides with the
unlimited walk, and the level-0 walk coincides with the unlimited walk
of the tree cut one level down. -/
theorem c5_witness :
    show_dir defaultConfig 3 "root" tDepth 0 st0 =
        show_dirNoLimit defaultConfig 3 "root" tDepth 0 st0 ∧
      show_dir { defaultConfig with level := 0 } 3 "root" tDepth 0 st0 =
        show_dirNoLimit { defaultConfig with level := 0 } 3 "root" (prune 1 tDepth) 0 st0 :=
  ⟨c5_depth_limit.1 defaultConfig 3 "root" tDepth 0 st0 rfl,
    c5_depth_limit.2.1 { defaultConfig with level := 0 } 3 "root" tDepth 0 st0 (by decide)⟩

end Aldar
